import Mathlib

/-!
Verification development for the organization-management backend
(`services.py`, `routes.py`, `auth.py`, `config.py`, `database.py`).

The MongoDB store is embedded as explicit state: the `organizations` and
`admins` collections are lists of records (natural insertion order, so
`find_one` is `List.find?`), the dynamically named per-organization data
collections are an association list from collection name to document list,
and ObjectId generation is a counter threaded through the state.
`HTTPException` raising is embedded by returning the (possibly already
mutated) state together with an `Except` value: an operation that raises
after performing writes returns the written state alongside the error,
exactly as the side effects persist in the real store when the exception
propagates.

External libraries (bcrypt, python-jose) are not part of the repository;
the definitions standing in for them carry a doc comment starting with
"Modelled from the spec:" and follow the Credential Engine contract of
section 4.1 of the specification.
-/

namespace OrgBackend

/-- Document stored in a per-organization data collection. Only identity
(the Mongo `_id`, modelled as a `Nat`) and whether the document is the
initialization seed inserted by `setup_org_collection` are relevant to the
specification's claims. -/
structure Doc where
  id : Nat
  seedMark : Bool
deriving DecidableEq, Repr

/-- Admin record (`admins` collection), per `services.create_org`:
`{email, password (bcrypt hash), created_at}` plus the generated `_id`. -/
structure Admin where
  id : Nat
  email : String
  password : String
  created_at : Nat
deriving DecidableEq, Repr

/-- Connection descriptor embedded in the organization record
(`connection_details` in `services.create_org`). -/
structure ConnectionDetails where
  database : String
  collection : String
deriving DecidableEq, Repr

/-- Organization record (`organizations` collection), per
`services.create_org` / `services.update_org`. The stored `admin_id` is
`str(ObjectId)` in the source; since `str` is injective on ObjectIds it is
modelled by the numeric id itself. -/
structure Organization where
  id : Nat
  organization_name : String
  collection_name : String
  admin_id : Nat
  admin_email : String
  created_at : Nat
  updated_at : Option Nat
  connection_details : ConnectionDetails
deriving DecidableEq, Repr

/-- The whole database state: the two fixed collections, the dynamically
named per-organization collections (name ↦ contents; presence in the list
is collection existence), and the ObjectId counter. -/
structure DB where
  orgs : List Organization
  admins : List Admin
  colls : List (String × List Doc)
  nextId : Nat
deriving DecidableEq, Repr

/-- FastAPI `HTTPException`: status code and detail message. -/
structure HTTPException where
  status_code : Nat
  detail : String
deriving DecidableEq, Repr

/-- Authenticated identity produced by `auth.get_current_user`. -/
structure CurrentUser where
  admin_id : Nat
  organization_id : Nat
  email : Option String
deriving DecidableEq, Repr

/-- Result view returned by `services.create_org`. -/
structure CreateView where
  organization_id : Nat
  organization_name : String
  collection_name : String
  admin_email : String
  created_at : Nat
deriving DecidableEq, Repr

/-- Result view returned by `services.get_org`. -/
structure GetView where
  organization_id : Nat
  organization_name : String
  collection_name : String
  admin_email : String
  created_at : Nat
  connection_details : ConnectionDetails
deriving DecidableEq, Repr

/-- Result returned by `services.update_org`. -/
structure RenameResult where
  message : String
  organization_name : String
  collection_name : String
deriving DecidableEq, Repr

/-- Result returned by `services.delete_org`. -/
structure DeleteResult where
  message : String
  organization_name : String
deriving DecidableEq, Repr

/-! Generic list helpers embedding the single-record store operations:
`delete_one` removes the first match, `update_one` patches the first
match, `find_one` (`List.find?`) returns the first match. -/

/-- Remove the first element satisfying the predicate (Mongo
`delete_one`, and `drop` on the collection list). -/
def removeFirst (p : α → Bool) : List α → List α
  | [] => []
  | x :: xs => if p x then xs else x :: removeFirst p xs

/-- Patch the first element satisfying the predicate (Mongo
`update_one` with a `$set` patch). -/
def updateFirst (p : α → Bool) (f : α → α) : List α → List α
  | [] => []
  | x :: xs => if p x then f x :: xs else x :: updateFirst p f xs

/-- Mongo `find_one` on the organizations collection filtered by
`organization_name`. -/
def orgsFindByName (db : DB) (name : String) : Option Organization :=
  db.orgs.find? (fun o => o.organization_name == name)

/-- Mongo `find_one` on the admins collection filtered by `email`. -/
def adminsFindByEmail (db : DB) (email : String) : Option Admin :=
  db.admins.find? (fun a => a.email == email)

/-- Contents of a named per-organization collection, if it exists
(`db[name].find()` returns nothing for a missing collection). -/
def collFind (colls : List (String × List Doc)) (name : String) : Option (List Doc) :=
  (colls.find? (fun c => c.1 == name)).map (fun c => c.2)

/-- Drop a named collection (`db[name].drop()`; a no-op when the
collection does not exist, as in Mongo). -/
def collDrop (colls : List (String × List Doc)) (name : String) :
    List (String × List Doc) :=
  removeFirst (fun c => c.1 == name) colls

/-- Write the full contents of a named collection, creating it implicitly
when documents are written into a name that does not exist yet (Mongo
creates a collection on first insert; writing no documents creates
nothing). -/
def collSetOrCreate (colls : List (String × List Doc)) (name : String)
    (contents : List Doc) : List (String × List Doc) :=
  if colls.any (fun c => c.1 == name) then
    updateFirst (fun c => c.1 == name) (fun c => (c.1, contents)) colls
  else if contents.isEmpty then colls
  else colls ++ [(name, contents)]

/-- Ordered `insert_many` against existing contents: documents are
inserted one by one; the first document whose `_id` already exists in the
target stops the bulk write, leaving the earlier inserts in place and
reporting failure (Mongo raises `BulkWriteError`, unhandled by the
source). -/
def insertDocsOrdered : List Doc → List Doc → List Doc × Bool
  | existing, [] => (existing, true)
  | existing, d :: ds =>
    if existing.any (fun e => e.id == d.id) then (existing, false)
    else insertDocsOrdered (existing ++ [d]) ds

/-! Credential Engine (`auth.py`). The bcrypt and python-jose libraries
are external; their behavior is modelled from the specification's
Credential Engine contract (section 4.1). -/

/-- Modelled from the spec: bcrypt (`auth.hash_pwd`) is not part of the
repository. A salted one-way hash with a per-call random salt; the salt
is passed explicitly as the source of randomness. The concrete format
(a salt-length marker between two sentinel characters, followed by the
password-derived part) only serves to make `check_pwd` recompute-and-
compare, as the spec demands. -/
def hashChars (salt : Nat) (password : List Char) : List Char :=
  '$' :: (List.replicate salt '#' ++ '$' :: password)

/-- Tail parser for `checkChars`: consume the salt marker, then compare
the remainder with the candidate password. -/
def checkTail (plain : List Char) : List Char → Bool
  | [] => false
  | c :: rest => if c = '$' then plain == rest else if c = '#' then checkTail plain rest else false

/-- Character-level verification: parse the stored hash and compare. Any
string that does not have the shape produced by `hashChars` is rejected
with `false`. -/
def checkChars (plain : List Char) (hashed : List Char) : Bool :=
  match hashed with
  | [] => false
  | c :: rest => if c = '$' then checkTail plain rest else false

/-- Modelled from the spec: `auth.hash_pwd` delegating to bcrypt. -/
def hash_pwd (salt : Nat) (password : String) : String :=
  String.mk (hashChars salt password.data)

/-- Modelled from the spec: `auth.check_pwd` delegating to bcrypt —
total on all inputs, recomputes and compares, returns `false` on any
malformed hash and never throws (section 4.1 of the specification). -/
def check_pwd (plain : String) (hashed : String) : Bool :=
  checkChars plain.data hashed.data

/-- Token claims carried by the bearer token (`routes.login_endpoint`
builds `{admin_id, organization_id, email}`). -/
structure Claims where
  admin_id : Nat
  organization_id : Nat
  email : String
deriving DecidableEq, Repr

/-- Signed token payload: the claims plus the `exp` timestamp added by
`auth.create_token` (seconds). -/
structure Payload where
  claims : Claims
  exp : Nat
deriving DecidableEq, Repr

/-- Modelled from the spec: a symmetric signature (python-jose HMAC is
not part of the repository) is embedded as the pair of the signing key
and the signed payload, so verification is comparison against a freshly
recomputed signature. -/
structure TokenSig where
  key : Nat
  signed : Payload
deriving DecidableEq, Repr

/-- Structurally well-formed token: payload plus signature. -/
structure Jwt where
  payload : Payload
  sig : TokenSig
deriving DecidableEq, Repr

/-- Wire form of a presented token: either structurally well formed, or
arbitrary bytes that do not parse as a token at all. -/
inductive TokenWire
  | wellFormed (jwt : Jwt)
  | malformed (raw : String)
deriving DecidableEq, Repr

/-- Fixed token TTL in minutes (`config.TOKEN_EXPIRE_MIN`). -/
def TOKEN_EXPIRE_MIN : Nat := 30

/-- Database name (`config.DB_NAME`). -/
def DB_NAME : String := "master_organization_db"

/-- Modelled from the spec: `auth.create_token` — copy the claims, add
`exp := now + TOKEN_EXPIRE_MIN minutes`, sign with the process-wide
secret key. `now` is the current time in seconds. -/
def create_token (key : Nat) (now : Nat) (data : Claims) : Jwt :=
  let payload : Payload := ⟨data, now + TOKEN_EXPIRE_MIN * 60⟩
  ⟨payload, ⟨key, payload⟩⟩

/-- Modelled from the spec: `auth.verify_token` — decode, check the
signature against the process key and the expiry against the current
time; any structural, signature, or expiry failure raises 401 with the
single message "Token validation failed". -/
def verify_token (key : Nat) (now : Nat) (t : TokenWire) : Except HTTPException Payload :=
  match t with
  | .malformed _ => .error ⟨401, "Token validation failed"⟩
  | .wellFormed j =>
    if j.sig = ⟨key, j.payload⟩ ∧ now < j.payload.exp then .ok j.payload
    else .error ⟨401, "Token validation failed"⟩

/-! Tenant Lifecycle Manager (`services.py`). -/

/-- Collection-name derivation (`services.clean_org_name`):
`re.sub(r'[^a-zA-Z0-9_]', '_', name.lower())` prefixed with `org_`.
Lowercasing is modelled per character over the ASCII range that the
regex character class refers to. -/
def clean_org_name (name : String) : String :=
  "org_" ++ String.mk ((name.data.map Char.toLower).map
    (fun c => if c.isAlphanum ∨ c = '_' then c else '_'))

/-- The derivation as the specification words it (section 3 and claim
C8): lowercase the name, replace every character that is not a letter,
digit, or underscore with an underscore, and prepend the prefix. Stated
separately from `clean_org_name` so the two can be compared. -/
def derive_collection_name (name : String) : String :=
  "org_" ++ String.mk (name.data.map (fun c =>
    let l := Char.toLower c
    if l.isAlphanum ∨ l = '_' then l else '_'))

/-- Best-effort collection provisioning (`services.setup_org_collection`):
`create_collection` plus one seed document; any failure (for instance the
collection already existing) is swallowed by the bare `except` and
reported as `False`, which `create_org` ignores. -/
def setup_org_collection (db : DB) (coll_name : String) (now : Nat) : DB × Bool :=
  if db.colls.any (fun c => c.1 == coll_name) then (db, false)
  else
    ({ db with
        colls := db.colls ++ [(coll_name, [⟨db.nextId, true⟩])],
        nextId := db.nextId + 1 }, true)

/-- Organization creation (`services.create_org`): duplicate-name check,
duplicate-email check (both raise 400 before any write), then collection
provisioning (best effort), admin insert, organization insert. `salt` is
the bcrypt salt drawn for this call and `now` the wall-clock time. -/
def create_org (db : DB) (salt now : Nat) (org_name email password : String) :
    DB × Except HTTPException CreateView :=
  if (orgsFindByName db org_name).isSome then
    (db, .error ⟨400, "Organization name taken"⟩)
  else if (adminsFindByEmail db email).isSome then
    (db, .error ⟨400, "Email already registered"⟩)
  else
    let coll_name := clean_org_name org_name
    let db1 := (setup_org_collection db coll_name now).1
    let adminId := db1.nextId
    let admin : Admin := ⟨adminId, email, hash_pwd salt password, now⟩
    let db2 : DB := { db1 with admins := db1.admins ++ [admin], nextId := db1.nextId + 1 }
    let orgId := db2.nextId
    let org : Organization :=
      ⟨orgId, org_name, coll_name, adminId, email, now, none, ⟨DB_NAME, coll_name⟩⟩
    let db3 : DB := { db2 with orgs := db2.orgs ++ [org], nextId := db2.nextId + 1 }
    (db3, .ok ⟨orgId, org_name, coll_name, email, now⟩)

/-- Organization lookup (`services.get_org`): pure read, 404 when the
name matches no organization. -/
def get_org (db : DB) (org_name : String) : Except HTTPException GetView :=
  match orgsFindByName db org_name with
  | none => .error ⟨404, "Organization not found"⟩
  | some org =>
    .ok ⟨org.id, org.organization_name, org.collection_name, org.admin_email,
         org.created_at, org.connection_details⟩

/-- Email-availability check of `services.update_org`:
`admins.find_one({"email": e, "_id": {"$ne": ObjectId(admin_id)}})`. -/
def emailTakenByOther (admins : List Admin) (admin_id : Nat) (email : Option String) : Bool :=
  match email with
  | none => false
  | some e => admins.any (fun a => a.email == e && a.id != admin_id)

/-- Document migration step of `services.update_org`: read all documents
of the old collection, bulk-insert them into the (possibly implicitly
created) new collection, then drop the old collection. The boolean is
`false` when the bulk insert hit a duplicate `_id` (the source does not
handle that error, so the old collection is not dropped in that case). -/
def migrateColls (colls : List (String × List Doc)) (old_coll new_coll : String) :
    List (String × List Doc) × Bool :=
  let docs := (collFind colls old_coll).getD []
  if docs.isEmpty then (collDrop colls old_coll, true)
  else
    let existing := (collFind colls new_coll).getD []
    let r := insertDocsOrdered existing docs
    if r.2 then (collDrop (collSetOrCreate colls new_coll r.1) old_coll, true)
    else (collSetOrCreate colls new_coll r.1, false)

/-- Organization update (`services.update_org`): 404 when `old_name` is
missing; 400 when the new name is taken; document migration when the
name changes (errors there propagate as 500 with the partial state kept);
then the email-conflict check (400, with the migrated state kept); then
the staged admin update and the organization-record update. -/
def update_org (db : DB) (salt now : Nat) (old_name new_name : String)
    (email password : Option String) : DB × Except HTTPException RenameResult :=
  match orgsFindByName db old_name with
  | none => (db, .error ⟨404, "Organization not found"⟩)
  | some org =>
    if old_name ≠ new_name ∧ (orgsFindByName db new_name).isSome then
      (db, .error ⟨400, "New name already exists"⟩)
    else
      let colls1 := if old_name = new_name then db.colls
        else (migrateColls db.colls org.collection_name (clean_org_name new_name)).1
      let migrOk := if old_name = new_name then true
        else (migrateColls db.colls org.collection_name (clean_org_name new_name)).2
      let new_coll := if old_name = new_name then org.collection_name
        else clean_org_name new_name
      if migrOk = false then
        ({ db with colls := colls1 }, .error ⟨500, "Internal Server Error"⟩)
      else if emailTakenByOther db.admins org.admin_id email then
        ({ db with colls := colls1 }, .error ⟨400, "Email in use"⟩)
      else
        let admins1 :=
          if email.isSome || password.isSome then
            updateFirst (fun a => a.id == org.admin_id)
              (fun a =>
                { a with
                    email := email.getD a.email,
                    password := (password.map (fun p => hash_pwd salt p)).getD a.password })
              db.admins
          else db.admins
        let orgs1 :=
          updateFirst (fun o => o.id == org.id)
            (fun o =>
              { o with
                  organization_name := new_name,
                  collection_name := new_coll,
                  updated_at := some now,
                  admin_email := email.getD o.admin_email })
            db.orgs
        ({ db with orgs := orgs1, admins := admins1, colls := colls1 },
         .ok ⟨"Organization updated", new_name, new_coll⟩)

/-- Organization deletion (`services.delete_org`): 404 when missing, 403
when the acting admin is not the stored owner; on success drop the
backing collection, delete the admin record (best effort), delete the
organization record. -/
def delete_org (db : DB) (org_name : String) (current_user : CurrentUser) :
    DB × Except HTTPException DeleteResult :=
  match orgsFindByName db org_name with
  | none => (db, .error ⟨404, "Organization not found"⟩)
  | some org =>
    if org.admin_id ≠ current_user.admin_id then
      (db, .error ⟨403, "Not authorized"⟩)
    else
      ({ orgs := removeFirst (fun o => o.id == org.id) db.orgs,
         admins := removeFirst (fun a => a.id == org.admin_id) db.admins,
         colls := collDrop db.colls org.collection_name,
         nextId := db.nextId },
       .ok ⟨"Organization deleted", org_name⟩)

/-- Response of `routes.login_endpoint` on success. -/
structure TokenResponse where
  access_token : Jwt
  token_type : String
  admin_id : Nat
  organization_id : Nat
  organization_name : String
deriving DecidableEq, Repr

/-- Login (`routes.login_endpoint`): look the admin up by email, verify
the password, look the organization up by `admin_id`, and issue a token.
Both the unknown-email case and the wrong-password case raise 401 with
the identical detail "Invalid credentials". Pure read: no state change. -/
def login (db : DB) (key now : Nat) (email password : String) :
    Except HTTPException TokenResponse :=
  match adminsFindByEmail db email with
  | none => .error ⟨401, "Invalid credentials"⟩
  | some admin =>
    if check_pwd password admin.password = false then
      .error ⟨401, "Invalid credentials"⟩
    else
      match db.orgs.find? (fun o => o.admin_id == admin.id) with
      | none => .error ⟨404, "No org found"⟩
      | some org =>
        .ok ⟨create_token key now ⟨admin.id, org.id, admin.email⟩, "bearer",
             admin.id, org.id, org.organization_name⟩

/-- All document ids across all per-organization collections. -/
def docIds (colls : List (String × List Doc)) : List Nat :=
  colls.flatMap (fun c => c.2.map Doc.id)

/-- Store-level well-formedness: uniqueness of the record ids, of the
uniquely indexed key fields (`database.init_db` creates unique indexes on
`organization_name` and `email`), of the collection names, and of the
document ids (Mongo enforces `_id` uniqueness and ObjectIds are globally
fresh). -/
def WF (db : DB) : Prop :=
  (db.orgs.map Organization.id).Nodup ∧
  (db.orgs.map Organization.organization_name).Nodup ∧
  (db.admins.map Admin.id).Nodup ∧
  (db.admins.map Admin.email).Nodup ∧
  (db.colls.map Prod.fst).Nodup ∧
  (docIds db.colls).Nodup

instance (db : DB) : Decidable (WF db) := by
  unfold WF; infer_instance

instance {ε α : Type} [DecidableEq ε] [DecidableEq α] : DecidableEq (Except ε α) := fun a b =>
  match a, b with
  | .ok x, .ok y =>
    match decEq x y with
    | isTrue h => isTrue (congrArg Except.ok h)
    | isFalse h => isFalse (fun hc => h (Except.ok.inj hc))
  | .error x, .error y =>
    match decEq x y with
    | isTrue h => isTrue (congrArg Except.error h)
    | isFalse h => isFalse (fun hc => h (Except.error.inj hc))
  | .ok _, .error _ => isFalse (fun hc => Except.noConfusion hc)
  | .error _, .ok _ => isFalse (fun hc => Except.noConfusion hc)

/-! Helper lemmas about the list embeddings of the store operations. -/

lemma find?_append_of_none {α : Type} (p : α → Bool) (l₁ l₂ : List α)
    (h : l₁.find? p = none) : (l₁ ++ l₂).find? p = l₂.find? p := by
  induction l₁ with
  | nil => rfl
  | cons a t ih =>
    rw [List.find?_eq_none] at h
    have ha : ¬ p a = true := h a (List.mem_cons_self a t)
    rw [List.cons_append, List.find?_cons_of_neg _ ha]
    exact ih (List.find?_eq_none.mpr (fun x hx => h x (List.mem_cons_of_mem a hx)))

lemma find?_removeFirst_self_none {α β : Type} [DecidableEq β] (g : α → β) (y : β) :
    ∀ l : List α, (l.map g).Nodup →
      (removeFirst (fun a => g a == y) l).find? (fun a => g a == y) = none := by
  intro l
  induction l with
  | nil => intro _; rfl
  | cons z zs ih =>
    intro hnd
    rw [List.map_cons, List.nodup_cons] at hnd
    by_cases hz : g z = y
    · rw [show removeFirst (fun a => g a == y) (z :: zs) = zs by
        simp [removeFirst, hz]]
      rw [List.find?_eq_none]
      intro a ha hay
      exact hnd.1 (by
        rw [beq_iff_eq] at hay
        rw [hz, ← hay]
        exact List.mem_map_of_mem g ha)
    · rw [show removeFirst (fun a => g a == y) (z :: zs)
          = z :: removeFirst (fun a => g a == y) zs by
        simp [removeFirst, hz]]
      rw [List.find?_cons_of_neg _ (by simpa using hz)]
      exact ih hnd.2

lemma find?_removeFirst_eq_none {α β γ : Type} [DecidableEq β] [DecidableEq γ]
    (f : α → β) (g : α → γ) (x : β) :
    ∀ (l : List α) (o : α),
      l.find? (fun a => f a == x) = some o →
      (l.map f).Nodup → (l.map g).Nodup →
      (removeFirst (fun a => g a == g o) l).find? (fun a => f a == x) = none := by
  intro l
  induction l with
  | nil => intro o h _ _; simp [List.find?] at h
  | cons y ys ih =>
    intro o hfind hnf hng
    rw [List.map_cons, List.nodup_cons] at hnf hng
    by_cases hy : f y = x
    · have : (y :: ys).find? (fun a => f a == x) = some y :=
        List.find?_cons_of_pos _ (by simpa using hy)
      have hoy : o = y := by
        rw [this] at hfind; exact (Option.some.injEq _ _ ▸ hfind).symm
      subst hoy
      rw [show removeFirst (fun a => g a == g o) (o :: ys) = ys by
        simp [removeFirst]]
      rw [List.find?_eq_none]
      intro a ha hax
      exact hnf.1 (by
        rw [beq_iff_eq] at hax
        rw [hy, ← hax]
        exact List.mem_map_of_mem f ha)
    · rw [List.find?_cons_of_neg _ (by simpa using hy)] at hfind
      have ho : o ∈ ys := List.mem_of_find?_eq_some hfind
      have hgy : ¬ (g y == g o) = true := by
        rw [beq_iff_eq]
        intro hgeq
        exact hng.1 (hgeq ▸ List.mem_map_of_mem g ho)
      rw [show removeFirst (fun a => g a == g o) (y :: ys)
          = y :: removeFirst (fun a => g a == g o) ys by
        simp [removeFirst]
        intro hc
        exact absurd (by simpa using hc) hgy]
      rw [List.find?_cons_of_neg _ (by simpa using hy)]
      exact ih o hfind hnf.2 hng.2

lemma find?_removeFirst_of_imp {α : Type} (p q : α → Bool)
    (h : ∀ a, q a = true → p a = false) :
    ∀ l : List α, (removeFirst q l).find? p = l.find? p := by
  intro l
  induction l with
  | nil => rfl
  | cons x xs ih =>
    by_cases hx : q x = true
    · rw [show removeFirst q (x :: xs) = xs by simp [removeFirst, hx]]
      rw [List.find?_cons_of_neg _ (by simp [h x hx])]
    · rw [show removeFirst q (x :: xs) = x :: removeFirst q xs by
        simp [removeFirst, hx]]
      by_cases hpx : p x = true
      · rw [List.find?_cons_of_pos _ hpx, List.find?_cons_of_pos _ hpx]
      · rw [List.find?_cons_of_neg _ hpx, List.find?_cons_of_neg _ hpx]
        exact ih

lemma find?_updateFirst_self {α β : Type} [DecidableEq β] (g : α → β) (f : α → α)
    (p pnew : α → Bool) :
    ∀ (l : List α) (o : α),
      l.find? p = some o →
      (l.map g).Nodup →
      (∀ a ∈ l, pnew a = false) →
      pnew (f o) = true →
      (updateFirst (fun a => g a == g o) f l).find? pnew = some (f o) := by
  intro l
  induction l with
  | nil => intro o h _ _ _; simp [List.find?] at h
  | cons y ys ih =>
    intro o hfind hng hnone hfo
    rw [List.map_cons, List.nodup_cons] at hng
    by_cases hy : p y = true
    · have : (y :: ys).find? p = some y := List.find?_cons_of_pos _ hy
      have hoy : o = y := by
        rw [this] at hfind; exact (Option.some.injEq _ _ ▸ hfind).symm
      subst hoy
      rw [show updateFirst (fun a => g a == g o) f (o :: ys) = f o :: ys by
        simp [updateFirst]]
      exact List.find?_cons_of_pos _ hfo
    · rw [List.find?_cons_of_neg _ hy] at hfind
      have ho : o ∈ ys := List.mem_of_find?_eq_some hfind
      have hgy : ¬ (g y == g o) = true := by
        rw [beq_iff_eq]
        intro hgeq
        exact hng.1 (hgeq ▸ List.mem_map_of_mem g ho)
      rw [show updateFirst (fun a => g a == g o) f (y :: ys)
          = y :: updateFirst (fun a => g a == g o) f ys by
        simp [updateFirst]
        intro hc
        exact absurd (by simpa using hc) hgy]
      rw [List.find?_cons_of_neg _ (by simp [hnone y (List.mem_cons_self y ys)])]
      exact ih o hfind hng.2
        (fun a ha => hnone a (List.mem_cons_of_mem y ha)) hfo

lemma map_updateFirst_eq {α β : Type} (q : α → Bool) (upd : α → α) (f : α → β)
    (h : ∀ a, f (upd a) = f a) :
    ∀ l : List α, (updateFirst q upd l).map f = l.map f := by
  intro l
  induction l with
  | nil => rfl
  | cons x xs ih =>
    by_cases hx : q x = true
    · simp [updateFirst, hx, h x]
    · simp [updateFirst, hx, ih]

lemma insertDocsOrdered_ok :
    ∀ (docs existing : List Doc),
      (∀ d ∈ docs, ∀ e ∈ existing, d.id ≠ e.id) →
      (docs.map Doc.id).Nodup →
      insertDocsOrdered existing docs = (existing ++ docs, true) := by
  intro docs
  induction docs with
  | nil => intro existing _ _; simp [insertDocsOrdered]
  | cons d ds ih =>
    intro existing hdisj hnd
    rw [List.map_cons, List.nodup_cons] at hnd
    have hany : existing.any (fun e => e.id == d.id) = false := by
      rw [List.any_eq_false]
      intro e he hbe
      rw [beq_iff_eq] at hbe
      exact hdisj d (List.mem_cons_self d ds) e he hbe.symm
    rw [show insertDocsOrdered existing (d :: ds)
        = insertDocsOrdered (existing ++ [d]) ds by
      simp [insertDocsOrdered, hany]]
    rw [ih (existing ++ [d]) ?_ hnd.2]
    · simp
    · intro d' hd' e he
      rcases List.mem_append.mp he with hel | hed
      · exact hdisj d' (List.mem_cons_of_mem d hd') e hel
      · rw [List.mem_singleton.mp hed]
        intro hid
        exact hnd.1 (hid ▸ List.mem_map_of_mem Doc.id hd')

lemma mem_docIds_of_collFind (n : String) :
    ∀ (colls : List (String × List Doc)) (l : List Doc),
      collFind colls n = some l → ∀ e ∈ l, e.id ∈ docIds colls := by
  intro colls
  induction colls with
  | nil => intro l h; simp [collFind, List.find?] at h
  | cons c cs ih =>
    intro l h e he
    rw [show docIds (c :: cs) = c.2.map Doc.id ++ docIds cs by
      simp [docIds]]
    by_cases hc : (c.1 == n) = true
    · rw [collFind, List.find?_cons_of_pos (p := fun x => x.1 == n) (a := c) _ hc] at h
      have : c.2 = l := by simpa using h
      exact List.mem_append.mpr (Or.inl (this ▸ List.mem_map_of_mem Doc.id he))
    · rw [collFind, List.find?_cons_of_neg (p := fun x => x.1 == n) (a := c) _ hc] at h
      exact List.mem_append.mpr (Or.inr (ih l h e he))

lemma nodup_ids_of_collFind (n : String) :
    ∀ (colls : List (String × List Doc)) (l : List Doc),
      (docIds colls).Nodup → collFind colls n = some l →
      (l.map Doc.id).Nodup := by
  intro colls
  induction colls with
  | nil => intro l _ h; simp [collFind, List.find?] at h
  | cons c cs ih =>
    intro l hnd h
    rw [show docIds (c :: cs) = c.2.map Doc.id ++ docIds cs by
      simp [docIds], List.nodup_append] at hnd
    by_cases hc : (c.1 == n) = true
    · rw [collFind, List.find?_cons_of_pos (p := fun x => x.1 == n) (a := c) _ hc] at h
      have : c.2 = l := by simpa using h
      exact this ▸ hnd.1
    · rw [collFind, List.find?_cons_of_neg (p := fun x => x.1 == n) (a := c) _ hc] at h
      exact ih l hnd.2.1 h

lemma collFind_disjoint_ids (n₁ n₂ : String) (h12 : n₁ ≠ n₂) :
    ∀ (colls : List (String × List Doc)) (l₁ l₂ : List Doc),
      (docIds colls).Nodup →
      collFind colls n₁ = some l₁ → collFind colls n₂ = some l₂ →
      ∀ d ∈ l₁, ∀ e ∈ l₂, d.id ≠ e.id := by
  intro colls
  induction colls with
  | nil => intro l₁ l₂ _ h; simp [collFind, List.find?] at h
  | cons c cs ih =>
    intro l₁ l₂ hnd h1 h2 d hd e he
    rw [show docIds (c :: cs) = c.2.map Doc.id ++ docIds cs by
      simp [docIds], List.nodup_append] at hnd
    by_cases hc1 : (c.1 == n₁) = true
    · have hc2 : ¬ (c.1 == n₂) = true := by
        rw [beq_iff_eq] at hc1 ⊢
        rw [hc1]; exact h12
      rw [collFind, List.find?_cons_of_pos (p := fun x => x.1 == n₁) (a := c) _ hc1] at h1
      rw [collFind, List.find?_cons_of_neg (p := fun x => x.1 == n₂) (a := c) _ hc2] at h2
      have hcl : c.2 = l₁ := by simpa using h1
      intro hide
      exact hnd.2.2 (hcl ▸ List.mem_map_of_mem Doc.id hd)
        (hide ▸ mem_docIds_of_collFind n₂ cs l₂ h2 e he)
    · rw [collFind, List.find?_cons_of_neg (p := fun x => x.1 == n₁) (a := c) _ hc1] at h1
      by_cases hc2 : (c.1 == n₂) = true
      · rw [collFind, List.find?_cons_of_pos (p := fun x => x.1 == n₂) (a := c) _ hc2] at h2
        have hcl : c.2 = l₂ := by simpa using h2
        intro hide
        exact hnd.2.2 (hcl ▸ List.mem_map_of_mem Doc.id he)
          (hide ▸ mem_docIds_of_collFind n₁ cs l₁ h1 d hd)
      · rw [collFind, List.find?_cons_of_neg (p := fun x => x.1 == n₂) (a := c) _ hc2] at h2
        exact ih l₁ l₂ hnd.2.1 h1 h2 d hd e he

lemma collFind_updateFirst_set (n : String) (contents : List Doc) :
    ∀ colls : List (String × List Doc),
      colls.any (fun c => c.1 == n) = true →
      collFind (updateFirst (fun c => c.1 == n) (fun c => (c.1, contents)) colls) n
        = some contents := by
  intro colls
  induction colls with
  | nil => intro h; simp at h
  | cons c cs ih =>
    intro hany
    by_cases hc : (c.1 == n) = true
    · rw [show updateFirst (fun c => c.1 == n) (fun c => (c.1, contents)) (c :: cs)
          = (c.1, contents) :: cs by simp [updateFirst, hc]]
      rw [collFind,
        List.find?_cons_of_pos (p := fun x => x.1 == n) (a := (c.1, contents)) _ hc]
      rfl
    · rw [show updateFirst (fun c => c.1 == n) (fun c => (c.1, contents)) (c :: cs)
          = c :: updateFirst (fun c => c.1 == n) (fun c => (c.1, contents)) cs by
        simp [updateFirst, hc]]
      rw [collFind, List.find?_cons_of_neg (p := fun x => x.1 == n) (a := c) _ hc]
      rw [List.any_cons, Bool.or_eq_true] at hany
      rcases hany with h | h
      · exact absurd h hc
      · exact ih h

lemma collFind_setOrCreate (n : String) (contents : List Doc)
    (hne : contents.isEmpty = false) (colls : List (String × List Doc)) :
    collFind (collSetOrCreate colls n contents) n = some contents := by
  by_cases hany : colls.any (fun c => c.1 == n) = true
  · rw [collSetOrCreate, if_pos hany]
    exact collFind_updateFirst_set n contents colls hany
  · rw [collSetOrCreate, if_neg hany, if_neg (by simp [hne])]
    have hnone : colls.find? (fun c => c.1 == n) = none := by
      rw [List.find?_eq_none]
      intro x hx hpx
      exact hany (List.any_eq_true.mpr ⟨x, hx, hpx⟩)
    rw [collFind, find?_append_of_none _ _ _ hnone]
    simp [List.find?]

lemma map_fst_setOrCreate_nodup (n : String) (contents : List Doc)
    (colls : List (String × List Doc))
    (hnd : (colls.map Prod.fst).Nodup) :
    ((collSetOrCreate colls n contents).map Prod.fst).Nodup := by
  by_cases hany : colls.any (fun c => c.1 == n) = true
  · rw [collSetOrCreate, if_pos hany]
    rw [map_updateFirst_eq (fun c => c.1 == n) (fun c => (c.1, contents)) Prod.fst
      (fun a => rfl)]
    exact hnd
  · rw [collSetOrCreate, if_neg hany]
    by_cases hc : contents.isEmpty = true
    · rw [if_pos hc]; exact hnd
    · rw [if_neg hc, List.map_append]
      rw [List.nodup_append]
      refine ⟨hnd, List.nodup_singleton n, ?_⟩
      intro a ha hb
      rcases List.mem_map.mp ha with ⟨c, hc1, hc2⟩
      have : a = n := by simpa using hb
      subst this
      exact hany (List.any_eq_true.mpr ⟨c, hc1, by simp [hc2]⟩)

lemma collFind_collDrop_of_ne (m n : String) (hnm : n ≠ m)
    (colls : List (String × List Doc)) :
    collFind (collDrop colls m) n = collFind colls n := by
  rw [collFind, collFind, collDrop]
  rw [find?_removeFirst_of_imp _ _ ?_]
  intro a ha
  rw [beq_iff_eq] at ha
  rw [Bool.eq_false_iff]
  intro hc
  rw [beq_iff_eq] at hc
  exact hnm (hc ▸ ha ▸ rfl)

lemma collFind_collDrop_self (n : String) (colls : List (String × List Doc))
    (hnd : (colls.map Prod.fst).Nodup) :
    collFind (collDrop colls n) n = none := by
  rw [collFind, collDrop]
  have := find?_removeFirst_self_none Prod.fst n colls hnd
  rw [this]
  rfl

lemma migrateColls_spec (colls : List (String × List Doc)) (old_coll derived : String)
    (hne : derived ≠ old_coll)
    (hnames : (colls.map Prod.fst).Nodup) (hids : (docIds colls).Nodup) :
    (migrateColls colls old_coll derived).2 = true ∧
    collFind (migrateColls colls old_coll derived).1 old_coll = none ∧
    (∀ d ∈ (collFind colls old_coll).getD [],
      ∃ l, collFind (migrateColls colls old_coll derived).1 derived = some l ∧ d ∈ l) := by
  cases hfind : collFind colls old_coll with
  | none =>
    have hmig : migrateColls colls old_coll derived = (collDrop colls old_coll, true) := by
      simp [migrateColls, hfind]
    rw [hmig]
    refine ⟨rfl, collFind_collDrop_self old_coll colls hnames, ?_⟩
    intro d hd
    simp at hd
  | some docs =>
    cases docs with
    | nil =>
      have hmig : migrateColls colls old_coll derived = (collDrop colls old_coll, true) := by
        simp [migrateColls, hfind]
      rw [hmig]
      refine ⟨rfl, collFind_collDrop_self old_coll colls hnames, ?_⟩
      intro d hd
      simp at hd
    | cons d0 ds =>
      have hdisj : ∀ d ∈ (d0 :: ds), ∀ e ∈ (collFind colls derived).getD [], d.id ≠ e.id := by
        cases hfd : collFind colls derived with
        | none => intro d _ e he; simp at he
        | some ex =>
          intro d hd e he
          exact collFind_disjoint_ids old_coll derived (fun h => hne h.symm)
            colls (d0 :: ds) ex hids hfind hfd d hd e (by simpa using he)
      have hnd : ((d0 :: ds).map Doc.id).Nodup :=
        nodup_ids_of_collFind old_coll colls (d0 :: ds) hids hfind
      have hins : insertDocsOrdered ((collFind colls derived).getD []) (d0 :: ds)
          = ((collFind colls derived).getD [] ++ (d0 :: ds), true) :=
        insertDocsOrdered_ok (d0 :: ds) _ (fun d hd e he => hdisj d hd e he) hnd
      have hmig : migrateColls colls old_coll derived
          = (collDrop (collSetOrCreate colls derived
              ((collFind colls derived).getD [] ++ (d0 :: ds))) old_coll, true) := by
        simp [migrateColls, hfind, hins]
      rw [hmig]
      refine ⟨rfl, ?_, ?_⟩
      · exact collFind_collDrop_self old_coll _
          (map_fst_setOrCreate_nodup derived _ colls hnames)
      · intro d hd
        refine ⟨(collFind colls derived).getD [] ++ (d0 :: ds), ?_, ?_⟩
        · rw [collFind_collDrop_of_ne old_coll derived hne]
          exact collFind_setOrCreate derived _ (by simp) colls
        · exact List.mem_append.mpr (Or.inr (by simpa using hd))

/-! Helper lemmas about the modelled Credential Engine. -/

lemma checkTail_replicate (plain pw : List Char) :
    ∀ s : Nat, checkTail plain (List.replicate s '#' ++ '$' :: pw) = (plain == pw) := by
  intro s
  induction s with
  | zero =>
    simp only [List.replicate, List.nil_append]
    simp [checkTail]
  | succ n ih =>
    rw [List.replicate_succ, List.cons_append]
    rw [show checkTail plain ('#' :: (List.replicate n '#' ++ '$' :: pw))
        = checkTail plain (List.replicate n '#' ++ '$' :: pw) by
      simp [checkTail, show ('#' : Char) ≠ '$' by decide]]
    exact ih

lemma checkChars_hashChars (p q : List Char) (s : Nat) :
    checkChars p (hashChars s q) = (p == q) := by
  rw [hashChars]
  rw [show checkChars p ('$' :: (List.replicate s '#' ++ '$' :: q))
      = checkTail p (List.replicate s '#' ++ '$' :: q) by simp [checkChars]]
  exact checkTail_replicate p q s

lemma checkTail_shape (plain : List Char) :
    ∀ rest : List Char, checkTail plain rest = true →
      ∃ s pw, rest = List.replicate s '#' ++ '$' :: pw := by
  intro rest
  induction rest with
  | nil => intro h; simp [checkTail] at h
  | cons c cs ih =>
    intro h
    by_cases hc : c = '$'
    · exact ⟨0, cs, by simp [hc]⟩
    · by_cases hc2 : c = '#'
      · have h' : checkTail plain cs = true := by
          simp only [checkTail] at h
          rw [if_neg hc, if_pos hc2] at h
          exact h
        rcases ih h' with ⟨s, pw, hrest⟩
        exact ⟨s + 1, pw, by rw [List.replicate_succ, List.cons_append, hc2, hrest]⟩
      · simp only [checkTail] at h
        rw [if_neg hc, if_neg hc2] at h
        exact absurd h (by simp)

lemma checkChars_shape (plain hashed : List Char) (h : checkChars plain hashed = true) :
    ∃ s pw, hashed = hashChars s pw := by
  cases hashed with
  | nil => simp [checkChars] at h
  | cons c cs =>
    by_cases hc : c = '$'
    · subst hc
      have h' : checkTail plain cs = true := by simpa [checkChars] using h
      rcases checkTail_shape plain cs h' with ⟨s, pw, hrest⟩
      exact ⟨s, pw, by rw [hashChars, hrest]⟩
    · rw [show checkChars plain (c :: cs) = false by simp [checkChars, hc]] at h
      exact absurd h (by simp)

lemma check_pwd_hash_pwd (p q : String) (s : Nat) :
    check_pwd p (hash_pwd s q) = (p.data == q.data) := by
  rw [check_pwd, hash_pwd]
  exact checkChars_hashChars p.data q.data s

lemma clean_eq_derive (name : String) :
    clean_org_name name = derive_collection_name name := by
  rw [clean_org_name, derive_collection_name, List.map_map]
  rfl

lemma find?_isSome_of_mem {α : Type} (p : α → Bool) (l : List α) (x : α)
    (hx : x ∈ l) (hp : p x = true) : (l.find? p).isSome = true := by
  cases hf : l.find? p with
  | some y => rfl
  | none => exact absurd hp (List.find?_eq_none.mp hf x hx)

lemma filter_eq_nil_of_none {α : Type} (p : α → Bool) (l : List α)
    (h : ∀ a ∈ l, p a = false) : l.filter p = [] := by
  induction l with
  | nil => rfl
  | cons x xs ih =>
    rw [List.filter_cons, h x (List.mem_cons_self x xs)]
    exact ih (fun a ha => h a (List.mem_cons_of_mem x ha))

lemma setup_org_collection_orgs (db : DB) (c : String) (now : Nat) :
    (setup_org_collection db c now).1.orgs = db.orgs := by
  rw [setup_org_collection]
  split <;> rfl

/-- The organization record inserted by a successful `create_org`. -/
def createdOrg (db : DB) (now : Nat) (org_name email : String) : Organization :=
  ⟨(setup_org_collection db (clean_org_name org_name) now).1.nextId + 1, org_name,
   clean_org_name org_name,
   (setup_org_collection db (clean_org_name org_name) now).1.nextId,
   email, now, none, ⟨DB_NAME, clean_org_name org_name⟩⟩

lemma create_org_success (db : DB) (salt now : Nat) (org_name email password : String)
    (hnone : orgsFindByName db org_name = none)
    (henone : adminsFindByEmail db email = none) :
    (create_org db salt now org_name email password).1.orgs
      = db.orgs ++ [createdOrg db now org_name email] ∧
    (create_org db salt now org_name email password).2
      = .ok ⟨(setup_org_collection db (clean_org_name org_name) now).1.nextId + 1,
             org_name, clean_org_name org_name, email, now⟩ := by
  rw [create_org, if_neg (by simp [hnone]), if_neg (by simp [henone])]
  refine ⟨?_, rfl⟩
  show (setup_org_collection db (clean_org_name org_name) now).1.orgs
      ++ [createdOrg db now org_name email] = _
  rw [setup_org_collection_orgs]

/-! Claim theorems. -/

/-- C1: creating an organization whose name is already used by an
Organization, or whose email is already used by an Admin, fails with
Conflict (HTTP 400 in this codebase) and inserts nothing; and after a
successful create, a second create with the same organization name fails
with Conflict, leaving exactly one Organization record with that name. -/
theorem C1_create_conflict_and_uniqueness (db : DB) (salt now : Nat)
    (org_name email password : String) :
    (((∃ o ∈ db.orgs, o.organization_name = org_name) ∨
      (∃ a ∈ db.admins, a.email = email)) →
      (create_org db salt now org_name email password).1 = db ∧
      ∃ d, (create_org db salt now org_name email password).2 = .error ⟨400, d⟩) ∧
    ((∀ o ∈ db.orgs, o.organization_name ≠ org_name) →
     (∀ a ∈ db.admins, a.email ≠ email) →
     ∀ (salt₂ now₂ : Nat) (email₂ password₂ : String),
      (∃ v, (create_org db salt now org_name email password).2 = .ok v) ∧
      (create_org (create_org db salt now org_name email password).1
          salt₂ now₂ org_name email₂ password₂).1
        = (create_org db salt now org_name email password).1 ∧
      (∃ d, (create_org (create_org db salt now org_name email password).1
          salt₂ now₂ org_name email₂ password₂).2 = .error ⟨400, d⟩) ∧
      (((create_org db salt now org_name email password).1).orgs.filter
          (fun o => o.organization_name == org_name)).length = 1) := by
  constructor
  · intro hdup
    by_cases hname : (orgsFindByName db org_name).isSome = true
    · rw [create_org, if_pos hname]
      exact ⟨rfl, "Organization name taken", rfl⟩
    · have hmail : (adminsFindByEmail db email).isSome = true := by
        rcases hdup with ⟨o, ho, hon⟩ | ⟨a, ha, hae⟩
        · exact absurd (find?_isSome_of_mem _ db.orgs o ho (by simp [hon])) hname
        · exact find?_isSome_of_mem _ db.admins a ha (by simp [hae])
      rw [create_org, if_neg hname, if_pos hmail]
      exact ⟨rfl, "Email already registered", rfl⟩
  · intro hnm hne salt₂ now₂ email₂ password₂
    have hnone : orgsFindByName db org_name = none := by
      rw [orgsFindByName, List.find?_eq_none]
      intro o ho hp
      rw [beq_iff_eq] at hp
      exact hnm o ho hp
    have henone : adminsFindByEmail db email = none := by
      rw [adminsFindByEmail, List.find?_eq_none]
      intro a ha hp
      rw [beq_iff_eq] at hp
      exact hne a ha hp
    obtain ⟨horgs, hok⟩ := create_org_success db salt now org_name email password hnone henone
    have hfnone : db.orgs.find? (fun o => o.organization_name == org_name) = none := by
      rw [orgsFindByName] at hnone; exact hnone
    have h2some : (orgsFindByName (create_org db salt now org_name email password).1
        org_name).isSome = true := by
      rw [orgsFindByName, horgs, find?_append_of_none _ _ _ hfnone]
      rw [List.find?_cons_of_pos _ (by simp [createdOrg])]
      rfl
    refine ⟨⟨_, hok⟩, ?_, ?_, ?_⟩
    · rw [create_org, if_pos h2some]
    · rw [create_org, if_pos h2some]
      exact ⟨"Organization name taken", rfl⟩
    · rw [horgs, List.filter_append]
      rw [filter_eq_nil_of_none _ db.orgs ?_]
      · simp [createdOrg]
      · intro a ha
        cases hb : (a.organization_name == org_name)
        · rfl
        · rw [beq_iff_eq] at hb
          exact absurd hb (hnm a ha)

/-- Example state with one organization ("Acme") owned by admin id 0,
used by concrete witnesses. -/
def exDB : DB :=
  ⟨[⟨1, "Acme", "org_acme", 0, "a@x.com", 0, none, ⟨DB_NAME, "org_acme"⟩⟩],
   [⟨0, "a@x.com", "h", 0⟩], [("org_acme", [⟨2, true⟩])], 3⟩

/-- Witness for C1: duplicate name rejected on a concrete state; a fresh
name succeeds once and is rejected the second time with one record kept. -/
theorem C1_witness :
    ((create_org exDB 0 0 "Acme" "x@x.com" "pw").1 = exDB ∧
     ∃ d, (create_org exDB 0 0 "Acme" "x@x.com" "pw").2 = .error ⟨400, d⟩) ∧
    ((∃ v, (create_org exDB 1 1 "Beta" "b@x.com" "pw").2 = .ok v) ∧
     (create_org (create_org exDB 1 1 "Beta" "b@x.com" "pw").1 2 2 "Beta" "c@x.com" "pw").1
       = (create_org exDB 1 1 "Beta" "b@x.com" "pw").1 ∧
     (∃ d, (create_org (create_org exDB 1 1 "Beta" "b@x.com" "pw").1
         2 2 "Beta" "c@x.com" "pw").2 = .error ⟨400, d⟩) ∧
     ((create_org exDB 1 1 "Beta" "b@x.com" "pw").1.orgs.filter
        (fun o => o.organization_name == "Beta")).length = 1) :=
  ⟨(C1_create_conflict_and_uniqueness exDB 0 0 "Acme" "x@x.com" "pw").1
     (Or.inl ⟨⟨1, "Acme", "org_acme", 0, "a@x.com", 0, none, ⟨DB_NAME, "org_acme"⟩⟩,
       by decide, rfl⟩),
   (C1_create_conflict_and_uniqueness exDB 1 1 "Beta" "b@x.com" "pw").2
     (by decide) (by decide) 2 2 "c@x.com" "pw"⟩

/-- C4: delete by the owner — when the organization exists and the
acting admin's id equals its stored admin_id, delete succeeds, the
Organization record and the Admin record are removed, the backing
collection is dropped, and a subsequent get of that name fails with 404
NotFound. -/
theorem C4_delete_by_owner (db : DB) (org_name : String) (user : CurrentUser)
    (o : Organization)
    (hwf : WF db)
    (hfind : orgsFindByName db org_name = some o)
    (hown : user.admin_id = o.admin_id) :
    (∃ v, (delete_org db org_name user).2 = .ok v) ∧
    orgsFindByName (delete_org db org_name user).1 org_name = none ∧
    (delete_org db org_name user).1.admins.find? (fun a => a.id == o.admin_id) = none ∧
    collFind (delete_org db org_name user).1.colls o.collection_name = none ∧
    get_org (delete_org db org_name user).1 org_name
      = .error ⟨404, "Organization not found"⟩ := by
  obtain ⟨hids, hnames, haids, hamails, hcnames, hdids⟩ := hwf
  have hred : delete_org db org_name user
      = (⟨removeFirst (fun x => x.id == o.id) db.orgs,
          removeFirst (fun a => a.id == o.admin_id) db.admins,
          collDrop db.colls o.collection_name, db.nextId⟩,
         .ok ⟨"Organization deleted", org_name⟩) := by
    simp only [delete_org, hfind]
    rw [if_neg (fun h => h hown.symm)]
  rw [orgsFindByName] at hfind
  have hogone : orgsFindByName (delete_org db org_name user).1 org_name = none := by
    rw [hred, orgsFindByName]
    exact find?_removeFirst_eq_none (fun x => x.organization_name) (fun x => x.id)
      org_name db.orgs o hfind hnames hids
  refine ⟨?_, hogone, ?_, ?_, ?_⟩
  · rw [hred]; exact ⟨_, rfl⟩
  · rw [hred]
    exact find?_removeFirst_self_none (fun a => a.id) o.admin_id db.admins haids
  · rw [hred]
    exact collFind_collDrop_self o.collection_name db.colls hcnames
  · rw [get_org, hogone]

/-- Witness for C4: the owner (admin id 0) deletes "Acme" on a concrete
state. -/
theorem C4_witness :
    (∃ v, (delete_org exDB "Acme" ⟨0, 7, none⟩).2 = .ok v) ∧
    orgsFindByName (delete_org exDB "Acme" ⟨0, 7, none⟩).1 "Acme" = none ∧
    (delete_org exDB "Acme" ⟨0, 7, none⟩).1.admins.find? (fun a => a.id == 0) = none ∧
    collFind (delete_org exDB "Acme" ⟨0, 7, none⟩).1.colls "org_acme" = none ∧
    get_org (delete_org exDB "Acme" ⟨0, 7, none⟩).1 "Acme"
      = .error ⟨404, "Organization not found"⟩ :=
  C4_delete_by_owner exDB "Acme" ⟨0, 7, none⟩
    ⟨1, "Acme", "org_acme", 0, "a@x.com", 0, none, ⟨DB_NAME, "org_acme"⟩⟩
    (by decide) (by decide) (by decide)

/-- C2 (amended): renaming an existing organization to a fresh, different
name — provided the derived new collection name differs from the
organization's current backing-collection name, and any provided email is
not owned by a different admin — succeeds; afterwards every document of
the old backing collection is present in the collection named by the
derivation of the new name, the old backing collection no longer exists,
and the organization record's collection_name equals the derived name.
The proviso is forced by the counterexample: when both names derive the
same collection name the migration re-inserts the documents into the same
collection, hits the duplicate-id store error, and aborts. -/
theorem C2_rename_migrates (db : DB) (salt now : Nat) (old_name new_name : String)
    (email password : Option String) (o : Organization)
    (hwf : WF db)
    (hfind : orgsFindByName db old_name = some o)
    (hnn : old_name ≠ new_name)
    (hnew : orgsFindByName db new_name = none)
    (hemail : ∀ e, email = some e → ∀ a ∈ db.admins, a.email = e → a.id = o.admin_id)
    (hcoll : clean_org_name new_name ≠ o.collection_name) :
    (∃ v, (update_org db salt now old_name new_name email password).2 = .ok v) ∧
    collFind (update_org db salt now old_name new_name email password).1.colls
      o.collection_name = none ∧
    (∀ d ∈ (collFind db.colls o.collection_name).getD [],
      ∃ l, collFind (update_org db salt now old_name new_name email password).1.colls
            (clean_org_name new_name) = some l ∧ d ∈ l) ∧
    (∃ o', orgsFindByName (update_org db salt now old_name new_name email password).1
            new_name = some o' ∧ o'.collection_name = clean_org_name new_name) := by
  obtain ⟨hids, hnames, haids, hamails, hcnames, hdids⟩ := hwf
  have hmig := migrateColls_spec db.colls o.collection_name (clean_org_name new_name)
    hcoll hcnames hdids
  have hcond : ¬ (old_name ≠ new_name ∧ (orgsFindByName db new_name).isSome = true) := by
    intro h
    rw [hnew] at h
    exact absurd h.2 (by simp)
  have hnotemail : emailTakenByOther db.admins o.admin_id email = false := by
    cases email with
    | none => rfl
    | some e =>
      rw [emailTakenByOther, List.any_eq_false]
      intro a ha hp
      rw [Bool.and_eq_true, beq_iff_eq, bne_iff_ne] at hp
      exact hp.2 (hemail e rfl a ha hp.1)
  have hred : update_org db salt now old_name new_name email password
      = ({ db with
            orgs := updateFirst (fun x => x.id == o.id)
              (fun x =>
                { x with
                    organization_name := new_name,
                    collection_name := clean_org_name new_name,
                    updated_at := some now,
                    admin_email := email.getD x.admin_email }) db.orgs,
            admins :=
              if email.isSome || password.isSome then
                updateFirst (fun a => a.id == o.admin_id)
                  (fun a =>
                    { a with
                        email := email.getD a.email,
                        password := (password.map (fun p => hash_pwd salt p)).getD a.password })
                  db.admins
              else db.admins,
            colls := (migrateColls db.colls o.collection_name (clean_org_name new_name)).1 },
         .ok ⟨"Organization updated", new_name, clean_org_name new_name⟩) := by
    simp only [update_org, hfind]
    rw [if_neg hcond]
    simp only [if_neg hnn]
    rw [if_neg (by rw [hmig.1]; simp)]
    rw [if_neg (by rw [hnotemail]; simp)]
  rw [hred]
  refine ⟨⟨_, rfl⟩, hmig.2.1, hmig.2.2, ?_⟩
  refine ⟨{ o with
      organization_name := new_name,
      collection_name := clean_org_name new_name,
      updated_at := some now,
      admin_email := email.getD o.admin_email }, ?_, rfl⟩
  rw [orgsFindByName]
  refine find?_updateFirst_self (fun x => x.id) _ (fun x => x.organization_name == old_name)
    (fun x => x.organization_name == new_name) db.orgs o ?_ hids ?_ ?_
  · rw [orgsFindByName] at hfind; exact hfind
  · intro a ha
    rw [orgsFindByName, List.find?_eq_none] at hnew
    cases hb : (a.organization_name == new_name)
    · exact hb
    · exact absurd hb (hnew a ha)
  · simp

/-- Example state with one organization ("Acme Corp", backing collection
org_acme_corp holding one document) and its admin, used by the C2
witness and counterexample. -/
def exDB2 : DB :=
  ⟨[⟨1, "Acme Corp", "org_acme_corp", 0, "a@x.com", 0, none, ⟨DB_NAME, "org_acme_corp"⟩⟩],
   [⟨0, "a@x.com", "h", 0⟩], [("org_acme_corp", [⟨2, true⟩])], 3⟩

/-- Witness for C2 (amended) at the spec's example rename of "Acme Corp"
to "Acme Inc". -/
theorem C2_witness :
    (∃ v, (update_org exDB2 0 0 "Acme Corp" "Acme Inc" none none).2 = .ok v) ∧
    collFind (update_org exDB2 0 0 "Acme Corp" "Acme Inc" none none).1.colls
      "org_acme_corp" = none ∧
    (∀ d ∈ (collFind exDB2.colls "org_acme_corp").getD [],
      ∃ l, collFind (update_org exDB2 0 0 "Acme Corp" "Acme Inc" none none).1.colls
            (clean_org_name "Acme Inc") = some l ∧ d ∈ l) ∧
    (∃ o', orgsFindByName (update_org exDB2 0 0 "Acme Corp" "Acme Inc" none none).1
            "Acme Inc" = some o' ∧ o'.collection_name = clean_org_name "Acme Inc") :=
  C2_rename_migrates exDB2 0 0 "Acme Corp" "Acme Inc" none none
    ⟨1, "Acme Corp", "org_acme_corp", 0, "a@x.com", 0, none, ⟨DB_NAME, "org_acme_corp"⟩⟩
    (by decide) (by decide) (by decide) (by decide)
    (fun e he => nomatch he) (by decide)

/-- Counterexample to C2 as stated: "Acme-Corp" is a different, untaken
name, yet it derives the same collection name org_acme_corp as
"Acme Corp"; the migration re-inserts the found documents into that same
collection, hits the duplicate-id bulk-write error (unhandled by the
source, surfacing as 500), and the old backing collection still exists
after the call — refuting the claim's "the old backing collection no
longer exists". -/
theorem C2_counterexample :
    ("Acme Corp" : String) ≠ "Acme-Corp" ∧
    orgsFindByName exDB2 "Acme-Corp" = none ∧
    (update_org exDB2 0 0 "Acme Corp" "Acme-Corp" none none).2
      = .error ⟨500, "Internal Server Error"⟩ ∧
    ¬ collFind (update_org exDB2 0 0 "Acme Corp" "Acme-Corp" none none).1.colls
        "org_acme_corp" = none := by
  decide

/-- C10: when rename is called with a fresh different name (whose derived
collection name differs from the current one) and an email that a
different admin already owns, the email Conflict (400 "Email in use") is
raised only after the document migration has already run: the old
backing collection has been dropped, its documents sit in the new
collection, and the organization (and admin) records are unchanged —
the record still points at the dropped collection. -/
theorem C10_email_conflict_after_migration
    (db : DB) (salt now : Nat) (old_name new_name e : String)
    (password : Option String) (o : Organization) (a : Admin)
    (hwf : WF db)
    (hfind : orgsFindByName db old_name = some o)
    (hnn : old_name ≠ new_name)
    (hnew : orgsFindByName db new_name = none)
    (ha : a ∈ db.admins) (hae : a.email = e) (haid : a.id ≠ o.admin_id)
    (hcoll : clean_org_name new_name ≠ o.collection_name) :
    (update_org db salt now old_name new_name (some e) password).2
      = .error ⟨400, "Email in use"⟩ ∧
    collFind (update_org db salt now old_name new_name (some e) password).1.colls
      o.collection_name = none ∧
    (∀ d ∈ (collFind db.colls o.collection_name).getD [],
      ∃ l, collFind (update_org db salt now old_name new_name (some e) password).1.colls
            (clean_org_name new_name) = some l ∧ d ∈ l) ∧
    (update_org db salt now old_name new_name (some e) password).1.orgs = db.orgs ∧
    (update_org db salt now old_name new_name (some e) password).1.admins = db.admins := by
  obtain ⟨hids, hnames, haids, hamails, hcnames, hdids⟩ := hwf
  have hmig := migrateColls_spec db.colls o.collection_name (clean_org_name new_name)
    hcoll hcnames hdids
  have hcond : ¬ (old_name ≠ new_name ∧ (orgsFindByName db new_name).isSome = true) := by
    intro h
    rw [hnew] at h
    exact absurd h.2 (by simp)
  have htaken : emailTakenByOther db.admins o.admin_id (some e) = true := by
    rw [emailTakenByOther, List.any_eq_true]
    refine ⟨a, ha, ?_⟩
    rw [Bool.and_eq_true, beq_iff_eq, bne_iff_ne]
    exact ⟨hae, haid⟩
  have hred : update_org db salt now old_name new_name (some e) password
      = ({ db with
            colls := (migrateColls db.colls o.collection_name (clean_org_name new_name)).1 },
         .error ⟨400, "Email in use"⟩) := by
    simp only [update_org, hfind]
    rw [if_neg hcond]
    simp only [if_neg hnn]
    rw [if_neg (by rw [hmig.1]; simp)]
    rw [if_pos htaken]
  rw [hred]
  exact ⟨rfl, hmig.2.1, hmig.2.2, rfl, rfl⟩

/-- Example state for the C10 witness: "Acme Corp" owned by admin 0, and
a second admin (id 5) who already owns b@x.com. -/
def exDB3 : DB :=
  ⟨[⟨1, "Acme Corp", "org_acme_corp", 0, "a@x.com", 0, none, ⟨DB_NAME, "org_acme_corp"⟩⟩],
   [⟨0, "a@x.com", "h", 0⟩, ⟨5, "b@x.com", "h2", 0⟩],
   [("org_acme_corp", [⟨2, true⟩])], 6⟩

/-- Witness for C10: renaming "Acme Corp" to "Acme Inc" with the email of
the other admin fails with 400 after the migration has run. -/
theorem C10_witness :
    (update_org exDB3 0 0 "Acme Corp" "Acme Inc" (some "b@x.com") none).2
      = .error ⟨400, "Email in use"⟩ ∧
    collFind (update_org exDB3 0 0 "Acme Corp" "Acme Inc" (some "b@x.com") none).1.colls
      "org_acme_corp" = none ∧
    (∀ d ∈ (collFind exDB3.colls "org_acme_corp").getD [],
      ∃ l, collFind (update_org exDB3 0 0 "Acme Corp" "Acme Inc" (some "b@x.com") none).1.colls
            (clean_org_name "Acme Inc") = some l ∧ d ∈ l) ∧
    (update_org exDB3 0 0 "Acme Corp" "Acme Inc" (some "b@x.com") none).1.orgs
      = exDB3.orgs ∧
    (update_org exDB3 0 0 "Acme Corp" "Acme Inc" (some "b@x.com") none).1.admins
      = exDB3.admins :=
  C10_email_conflict_after_migration exDB3 0 0 "Acme Corp" "Acme Inc" "b@x.com" none
    ⟨1, "Acme Corp", "org_acme_corp", 0, "a@x.com", 0, none, ⟨DB_NAME, "org_acme_corp"⟩⟩
    ⟨5, "b@x.com", "h2", 0⟩
    (by decide) (by decide) (by decide) (by decide) (by decide) (by decide) (by decide)
    (by decide)

/-- C5: for every claims set, verifying a freshly issued token before the
30-minute TTL elapses succeeds and returns the same claims plus an `exp`
field equal to issue time + 30 minutes; evaluated after the expiry has
elapsed, or on any token whose signature or structure is invalid, the
verification fails with 401 Unauthorized. -/
theorem C5_token_roundtrip_and_expiry (key issue check : Nat) (c : Claims) :
    (check < issue + TOKEN_EXPIRE_MIN * 60 →
      verify_token key check (.wellFormed (create_token key issue c))
        = .ok ⟨c, issue + TOKEN_EXPIRE_MIN * 60⟩) ∧
    (issue + TOKEN_EXPIRE_MIN * 60 ≤ check →
      verify_token key check (.wellFormed (create_token key issue c))
        = .error ⟨401, "Token validation failed"⟩) ∧
    (∀ j : Jwt, j.sig ≠ ⟨key, j.payload⟩ →
      verify_token key check (.wellFormed j) = .error ⟨401, "Token validation failed"⟩) ∧
    (∀ s : String, verify_token key check (.malformed s)
        = .error ⟨401, "Token validation failed"⟩) := by
  refine ⟨?_, ?_, ?_, ?_⟩
  · intro h
    simp [verify_token, create_token, h]
  · intro h
    simp [verify_token, create_token, show ¬ check < issue + TOKEN_EXPIRE_MIN * 60 by omega]
  · intro j hj
    simp [verify_token, hj]
  · intro s
    rfl

/-- Witness for C5 at concrete inputs: a fresh token verifies, an expired
token and a token with a broken signature are rejected. -/
theorem C5_witness :
    verify_token 0 10 (.wellFormed (create_token 0 0 ⟨1, 2, "a@x.com"⟩))
      = .ok ⟨⟨1, 2, "a@x.com"⟩, 0 + TOKEN_EXPIRE_MIN * 60⟩ ∧
    verify_token 0 2000 (.wellFormed (create_token 0 0 ⟨1, 2, "a@x.com"⟩))
      = .error ⟨401, "Token validation failed"⟩ ∧
    verify_token 0 10 (.wellFormed ⟨⟨⟨1, 2, "a@x.com"⟩, 99⟩, ⟨5, ⟨⟨1, 2, "a@x.com"⟩, 98⟩⟩⟩)
      = .error ⟨401, "Token validation failed"⟩ ∧
    verify_token 0 10 (.malformed "garbage") = .error ⟨401, "Token validation failed"⟩ :=
  ⟨(C5_token_roundtrip_and_expiry 0 0 10 ⟨1, 2, "a@x.com"⟩).1 (by decide),
   (C5_token_roundtrip_and_expiry 0 0 2000 ⟨1, 2, "a@x.com"⟩).2.1 (by decide),
   (C5_token_roundtrip_and_expiry 0 0 10 ⟨1, 2, "a@x.com"⟩).2.2.1
     ⟨⟨⟨1, 2, "a@x.com"⟩, 99⟩, ⟨5, ⟨⟨1, 2, "a@x.com"⟩, 98⟩⟩⟩ (by decide),
   (C5_token_roundtrip_and_expiry 0 0 10 ⟨1, 2, "a@x.com"⟩).2.2.2 "garbage"⟩

/-- C6: password round-trip — for every salt, verifying a password
against its own hash succeeds, and verifying it against the hash of a
different password fails. -/
theorem C6_password_roundtrip (s : Nat) (p q : String) (hpq : p ≠ q) :
    check_pwd p (hash_pwd s p) = true ∧ check_pwd p (hash_pwd s q) = false := by
  constructor
  · rw [check_pwd_hash_pwd]
    simp
  · rw [check_pwd_hash_pwd, Bool.eq_false_iff]
    intro hbe
    rw [beq_iff_eq] at hbe
    exact hpq (String.ext hbe)

/-- Witness for C6 at concrete passwords. -/
theorem C6_witness :
    ("secret1" : String) ≠ "secret2" ∧
    (check_pwd "secret1" (hash_pwd 3 "secret1") = true ∧
     check_pwd "secret1" (hash_pwd 3 "secret2") = false) :=
  ⟨by decide, C6_password_roundtrip 3 "secret1" "secret2" (by decide)⟩

/-- C7: password verification is a total Boolean function (the embedded
`check_pwd` terminates on every input by construction, so it never
throws), and on any string that is not a well-formed hash — not produced
by `hash_pwd` for any salt and password — it returns `false`. -/
theorem C7_verify_total_on_malformed (plain hashed : String)
    (hmal : ∀ s p, hash_pwd s p ≠ hashed) :
    check_pwd plain hashed = false := by
  rw [Bool.eq_false_iff]
  intro htrue
  rw [check_pwd] at htrue
  rcases checkChars_shape plain.data hashed.data htrue with ⟨s, pw, hshape⟩
  refine hmal s (String.mk pw) (String.ext ?_)
  exact hshape.symm

/-- Witness for C7: a concrete malformed hash is rejected. -/
theorem C7_witness : check_pwd "pw" "nothash" = false := by
  have hmal : ∀ s p, hash_pwd s p ≠ "nothash" := by
    intro s p h
    have hd : '$' :: (List.replicate s '#' ++ '$' :: p.data) = "nothash".data :=
      congrArg String.data h
    rw [show "nothash".data = ['n', 'o', 't', 'h', 'a', 's', 'h'] from rfl] at hd
    injection hd with h1 _
    exact absurd h1 (by decide)
  exact C7_verify_total_on_malformed "pw" "nothash" hmal

/-- C8: collection-name derivation — deterministic pure function that
lowercases, replaces every character that is not a letter, digit or
underscore with an underscore, and prepends the prefix; it sends
"Acme Corp" to org_acme_corp, and equal names yield equal collection
names. -/
theorem C8_collection_name_derivation :
    clean_org_name "Acme Corp" = "org_acme_corp" ∧
    (∀ name : String, clean_org_name name = derive_collection_name name) ∧
    (∀ n₁ n₂ : String, n₁ = n₂ → clean_org_name n₁ = clean_org_name n₂) := by
  refine ⟨by decide, clean_eq_derive, ?_⟩
  intro n₁ n₂ h
  rw [h]

/-- Witness for C8 at concrete names. -/
theorem C8_witness :
    clean_org_name "Acme Corp" = "org_acme_corp" ∧
    clean_org_name "Acme Corp" = clean_org_name "Acme Corp" :=
  ⟨C8_collection_name_derivation.1,
   C8_collection_name_derivation.2.2 "Acme Corp" "Acme Corp" rfl⟩

/-- C9: login with an email matching no admin, and login whose email
matches an admin but whose password fails verification, both fail with
the identical 401 "Invalid credentials" result, so the caller cannot
distinguish the two cases. -/
theorem C9_login_indistinguishable
    (db₁ db₂ : DB) (key₁ now₁ key₂ now₂ : Nat)
    (email₁ pw₁ email₂ pw₂ : String) (a : Admin)
    (h₁ : adminsFindByEmail db₁ email₁ = none)
    (h₂ : adminsFindByEmail db₂ email₂ = some a)
    (hpw : check_pwd pw₂ a.password = false) :
    login db₁ key₁ now₁ email₁ pw₁ = .error ⟨401, "Invalid credentials"⟩ ∧
    login db₂ key₂ now₂ email₂ pw₂ = .error ⟨401, "Invalid credentials"⟩ := by
  constructor
  · simp [login, h₁]
  · simp only [login, h₂]
    rw [if_pos hpw]

/-- Witness for C9: concrete unknown email and concrete wrong password
produce the same failure. -/
theorem C9_witness :
    login ⟨[], [], [], 0⟩ 0 0 "ghost@x.com" "pw" = .error ⟨401, "Invalid credentials"⟩ ∧
    login ⟨[], [⟨0, "a@x.com", hash_pwd 0 "right", 0⟩], [], 1⟩ 0 0 "a@x.com" "wrong"
      = .error ⟨401, "Invalid credentials"⟩ :=
  C9_login_indistinguishable ⟨[], [], [], 0⟩ ⟨[], [⟨0, "a@x.com", hash_pwd 0 "right", 0⟩], [], 1⟩
    0 0 0 0 "ghost@x.com" "pw" "a@x.com" "wrong"
    ⟨0, "a@x.com", hash_pwd 0 "right", 0⟩ (by decide) (by decide) (by decide)

/-- C3: delete by a non-owner — when the organization exists and the
acting admin's id differs from its stored admin_id, delete fails with
403 Forbidden ("Not authorized") and the entire state — organization
record, admin record, backing collection — is unchanged. -/
theorem C3_delete_forbidden (db : DB) (org_name : String) (user : CurrentUser)
    (o : Organization)
    (hfind : orgsFindByName db org_name = some o)
    (hown : o.admin_id ≠ user.admin_id) :
    delete_org db org_name user = (db, .error ⟨403, "Not authorized"⟩) := by
  simp only [delete_org, hfind]
  rw [if_pos hown]

/-- Witness for C3 at a concrete state and acting admin. -/
theorem C3_witness :
    delete_org
      ⟨[⟨1, "Acme", "org_acme", 0, "a@x.com", 0, none, ⟨DB_NAME, "org_acme"⟩⟩],
       [⟨0, "a@x.com", "h", 0⟩], [("org_acme", [⟨2, true⟩])], 3⟩
      "Acme" ⟨1, 5, some "b@x.com"⟩
    = (⟨[⟨1, "Acme", "org_acme", 0, "a@x.com", 0, none, ⟨DB_NAME, "org_acme"⟩⟩],
        [⟨0, "a@x.com", "h", 0⟩], [("org_acme", [⟨2, true⟩])], 3⟩,
       .error ⟨403, "Not authorized"⟩) :=
  C3_delete_forbidden
    ⟨[⟨1, "Acme", "org_acme", 0, "a@x.com", 0, none, ⟨DB_NAME, "org_acme"⟩⟩],
     [⟨0, "a@x.com", "h", 0⟩], [("org_acme", [⟨2, true⟩])], 3⟩
    "Acme" ⟨1, 5, some "b@x.com"⟩
    ⟨1, "Acme", "org_acme", 0, "a@x.com", 0, none, ⟨DB_NAME, "org_acme"⟩⟩
    (by decide) (by decide)

end OrgBackend
